import Mathlib

/-!
Verification of the SSML parser/serializer (`src/ssml.py`).

Strings are modelled as lists of characters (`Str`).  Python's string
methods (`strip`, `lower`, `find`, `rfind`, `replace`, `split(None, 1)`,
slicing) are reproduced below; case folding and character classes are
modelled for the ASCII range, which covers every input the development
evaluates.  Recursive scanning loops are modelled with an explicit fuel
parameter so that every definition is structurally recursive and the
kernel can evaluate it on concrete inputs; the callers supply fuel that
is provably larger than the number of loop steps the Python code takes.
-/

abbrev Str := List Char

/-- The apostrophe character, used when assembling error messages. -/
def apos : Char := Char.ofNat 39

/-- Python `str.isspace` on the ASCII range. -/
def pyIsSpace (c : Char) : Bool :=
  c = ' ' || c = '\t' || c = '\n' || c = '\r' || c = Char.ofNat 11 || c = Char.ofNat 12

/-- Python `str.lstrip()`. -/
def lstrip (s : Str) : Str := s.dropWhile pyIsSpace

/-- Python `str.rstrip()`. -/
def rstrip (s : Str) : Str := (s.reverse.dropWhile pyIsSpace).reverse

/-- Python `str.strip()`. -/
def pyStrip (s : Str) : Str := rstrip (lstrip s)

/-- Truthiness of `s.strip()` in Python: the string has a non-space character. -/
def hasNonWs (s : Str) : Bool := s.any fun c => !pyIsSpace c

/-- Python `str.lower()` (ASCII range). -/
def pyLower (s : Str) : Str := s.map Char.toLower

/-- Python slicing `s[a:b]` for `0 ≤ a`, `b` clamped to the length. -/
def pySlice (s : Str) (a b : Nat) : Str := (s.take b).drop a

/-- The character at index `i`, if any. -/
def charAt (s : Str) (i : Nat) : Option Char := (s.drop i).head?

/-- Index (relative) of the first occurrence of character `c`. -/
def findCharIdx (c : Char) : Str → Option Nat
  | [] => none
  | x :: xs => if x = c then some 0 else (findCharIdx c xs).map (· + 1)

/-- Python `s.find(c, i)` restricted to a single character, as an `Option`. -/
def findCharFrom (s : Str) (c : Char) (i : Nat) : Option Nat :=
  (findCharIdx c (s.drop i)).map (· + i)

/-- Index of the first occurrence of the substring `pat` (Python `s.find(pat)`). -/
def findSubIdx (pat : Str) : Str → Option Nat
  | [] => if pat.isEmpty then some 0 else none
  | x :: xs =>
    if pat.isPrefixOf (x :: xs) then some 0 else (findSubIdx pat xs).map (· + 1)

/-- Python `pat in s`. -/
def containsSub (s pat : Str) : Bool := (findSubIdx pat s).isSome

/-- Index of the last occurrence of the substring `pat` (Python `s.rfind(pat)`). -/
def rfindSub (pat : Str) : Str → Option Nat
  | [] => if pat.isEmpty then some 0 else none
  | x :: xs =>
    match rfindSub pat xs with
    | some k => some (k + 1)
    | none => if pat.isPrefixOf (x :: xs) then some 0 else none

/-- Python `s.startswith(pat, i)`. -/
def startsWithAt (s pat : Str) (i : Nat) : Bool := pat.isPrefixOf (s.drop i)

/-- Boolean prefix test on character lists. -/
def strStarts : Str → Str → Bool
  | [], _ => true
  | _ :: _, [] => false
  | p :: ps, x :: xs => p = x && strStarts ps xs

/-- Python `s.split(None, 1)`: at most two pieces, separated by the first
whitespace run; leading whitespace is discarded; an all-whitespace string
gives no pieces. -/
def splitFirstToken (s : Str) : List Str :=
  let t := s.dropWhile pyIsSpace
  if t.isEmpty then []
  else
    let tok := t.takeWhile fun c => !pyIsSpace c
    let rest := (t.dropWhile fun c => !pyIsSpace c).dropWhile pyIsSpace
    if rest.isEmpty then [tok] else [tok, rest]

/-- Decimal digit character. -/
def digitChar (d : Nat) : Char := Char.ofNat (48 + d)

/-- Decimal rendering of a natural number (fueled). -/
def natToStrAux : Nat → Nat → Str
  | 0, _ => []
  | fuel + 1, n =>
    if n < 10 then [digitChar n] else natToStrAux fuel (n / 10) ++ [digitChar (n % 10)]

/-- Decimal rendering of a natural number, as used in Python f-strings. -/
def natToStr (n : Nat) : Str := natToStrAux (n + 1) n

/-- Python `str.replace(pat, rep)` (leftmost, non-overlapping), fueled. -/
def listReplaceF (pat rep : Str) : Nat → Str → Str
  | 0, s => s
  | _, [] => []
  | fuel + 1, x :: xs =>
    if !pat.isEmpty && pat.isPrefixOf (x :: xs) then
      rep ++ listReplaceF pat rep fuel (xs.drop (pat.length - 1))
    else
      x :: listReplaceF pat rep fuel xs

/-- Python `str.replace(pat, rep)`; fuel equal to the length suffices since
each step consumes at least one character of the subject. -/
def listReplace (pat rep s : Str) : Str := listReplaceF pat rep s.length s

/-- `unescapeXMLChars` from the source: sequential replacement of the three
entities, in the source's order. -/
def unescapeXMLChars (t : Str) : Str :=
  listReplace "&amp;".toList "&".toList
    (listReplace "&gt;".toList ">".toList
      (listReplace "&lt;".toList "<".toList t))

/-- `escapeXMLChars` from the source: sequential replacement, `&` last,
exactly as the Python chain of `.replace` calls does it. -/
def escapeXMLChars (t : Str) : Str :=
  listReplace "&".toList "&amp;".toList
    (listReplace ">".toList "&gt;".toList
      (listReplace "<".toList "&lt;".toList t))

/-- The node tree built by the parser: `SSMLText` and `SSMLTag` from the
source, with an insertion-ordered attribute list standing for the Python
dict. -/
inductive SSMLNode where
  | SSMLText : Str → SSMLNode
  | SSMLTag : Str → List (Str × Str) → List SSMLNode → SSMLNode

/-- Python dict assignment `attrs[name] = value`: an existing key keeps its
position and is overwritten, a new key is appended. -/
def insertAttr (attrs : List (Str × Str)) (k v : Str) : List (Str × Str) :=
  if attrs.any fun p => p.1 = k then
    attrs.map fun p => if p.1 = k then (k, v) else p
  else
    attrs ++ [(k, v)]

/-- Characters allowed in an attribute name (`isalnum` or `-_.:`). -/
def isNameChar (c : Char) : Bool :=
  c.isAlphanum || c = '-' || c = '_' || c = '.' || c = ':'

/-- First index `≥ i` holding a non-space character, clamped to the length. -/
def skipWs (s : Str) (i : Nat) : Nat := i + ((s.drop i).takeWhile pyIsSpace).length

/-- End of the maximal attribute-name run starting at `i`. -/
def scanName (s : Str) (i : Nat) : Nat := i + ((s.drop i).takeWhile isNameChar).length

/-- First index `≥ i` holding `;`, clamped to the length. -/
def scanToSemi (s : Str) (i : Nat) : Nat :=
  i + ((s.drop i).takeWhile fun c => c ≠ ';').length

/-- End of an unquoted attribute value: scan until whitespace or `>`. -/
def scanUnquoted (s : Str) (i : Nat) : Nat :=
  i + ((s.drop i).takeWhile fun c => !pyIsSpace c && c ≠ '>').length

/-- The scan of a quoted attribute value (the inner `while` of
`parse_attributes`): stop at the quote character, and skip `&…;` entity
spans wholesale; a `&` whose `;` is missing drives the index to the end. -/
def scanQuoted (s : Str) (q : Char) : Nat → Nat → Nat
  | 0, i => i
  | fuel + 1, i =>
    match charAt s i with
    | none => i
    | some c =>
      if c = q then i
      else if c = '&' then
        let j := scanToSemi s (i + 1)
        if s.length ≤ j then s.length else scanQuoted s q fuel (j + 1)
      else scanQuoted s q fuel (i + 1)

/-- One pass of the `parse_attributes` loop from the source, with fuel for
the outer `while`. -/
def parseAttrsLoop (s : Str) : Nat → Nat → List (Str × Str) →
    Except Str (List (Str × Str))
  | 0, _, _ => .error "attribute fuel exhausted".toList
  | fuel + 1, i, acc =>
    let n := s.length
    let i1 := skipWs s i
    if n ≤ i1 then .ok acc
    else
      let i2 := scanName s i1
      if i2 = i1 then
        .error ("Invalid attribute at position ".toList ++ natToStr i1)
      else
        let name := pySlice s i1 i2
        let i3 := skipWs s i2
        if charAt s i3 ≠ some '=' then
          .error ("Expected '=' after attribute name '".toList ++ name ++ [apos])
        else
          let i4 := skipWs s (i3 + 1)
          match charAt s i4 with
          | none =>
            .error ("Expected attribute value after '=' for attribute '".toList ++
              name ++ [apos])
          | some quote =>
            if quote = '"' || quote = apos then
              let vstart := i4 + 1
              let vend := scanQuoted s quote (n + 1) vstart
              if charAt s vend = some quote then
                parseAttrsLoop s fuel (vend + 1) (insertAttr acc name (pySlice s vstart vend))
              else
                .error ("Unclosed quote in attribute value for '".toList ++ name ++ [apos])
            else
              let vend := scanUnquoted s i4
              parseAttrsLoop s fuel vend (insertAttr acc name (pySlice s i4 vend))

/-- `parse_attributes` from the source.  Fuel `length + 2` suffices: every
iteration but a final erroring one advances the scan position. -/
def parse_attributes (s : Str) : Except Str (List (Str × Str)) :=
  parseAttrsLoop s (s.length + 2) 0 []

/-- Error message of a mismatched closing tag. -/
def mismatchMsg (exp got : Str) : Str :=
  "Mismatched tags: expected </".toList ++ (exp ++ ">, got </".toList ++ got ++ ">".toList)

/-- Error message of a missing closing tag. -/
def missingClosingMsg (exp : Str) : Str :=
  "Missing closing tag </".toList ++ (exp ++ ">".toList)

/-- The wrapper the parser puts around attribute-tokenizer errors. -/
def wrapAttrErr (tagName e : Str) : Str :=
  "Invalid attributes in tag <".toList ++ (tagName ++ ">: ".toList ++ e)

/-- Flushing the pending text buffer: kept only if it has a non-space
character, and unescaped on the way in. -/
def flushText (t : Str) : List SSMLNode :=
  if hasNonWs t then [.SSMLText (unescapeXMLChars t)] else []

/-- The split of an opening tag's content: strip the text between `<` and
`>`, detect a trailing `/`, and split on the first whitespace run into the
name token and the attribute remainder (Python lines 156-167). -/
def openTagParts (s : Str) (j tagEnd : Nat) : List Str × Bool :=
  let tagContent := pyStrip (pySlice s (j + 1) tagEnd)
  let isSelfClosing := tagContent.getLast? = some '/'
  let tagContent2 := if isSelfClosing then pyStrip tagContent.dropLast else tagContent
  (splitFirstToken (pyStrip tagContent2), isSelfClosing)

/-- Processing of an opening tag's content in `parse_node`: the tag name is
folded to lower case, and the attribute tokenizer runs on the remainder,
its errors wrapped with the tag name.  Returns the name, the attributes
and the self-closing flag. -/
def openTagInfo (s : Str) (j tagEnd : Nat) : Except Str (Str × List (Str × Str) × Bool) :=
  match openTagParts s j tagEnd with
  | ([], _) => .error "Empty tag".toList
  | (tok :: restParts, isSelfClosing) =>
    let tagName := pyLower tok
    let attrStr := match restParts with | [] => ([] : Str) | r :: _ => r
    if attrStr.isEmpty then .ok (tagName, [], isSelfClosing)
    else
      match parse_attributes attrStr with
      | .error e => .error (wrapAttrErr tagName e)
      | .ok a => .ok (tagName, a, isSelfClosing)

/-- The recursive `parse_node` from `parseSSML`, with the accumulating
`while` loop expressed as recursion: the nodes produced after a tag are
computed by the recursive call that continues at the position following
it.  Fuel decreases at every recursive call; the scan position strictly
increases along every call chain, so fuel `length + 2` suffices. -/
def parse_node (s : Str) : Nat → Nat → Option Str → Except Str (List SSMLNode × Nat)
  | 0, _, _ => .error "parser fuel exhausted".toList
  | fuel + 1, pos, expected =>
    match findCharFrom s '<' pos with
    | none =>
      let pre := flushText (pySlice s pos s.length)
      match expected with
      | some exp => .error (missingClosingMsg exp)
      | none => .ok (pre, s.length)
    | some j =>
      let pre := flushText (pySlice s pos j)
      if startsWithAt s "</".toList j then
        match findCharFrom s '>' j with
        | none => .error "Unclosed tag".toList
        | some endTag =>
          match expected with
          | some exp =>
            if pyLower (pyStrip (pySlice s (j + 2) endTag)) ≠ exp then
              .error (mismatchMsg exp (pyLower (pyStrip (pySlice s (j + 2) endTag))))
            else .ok (pre, endTag + 1)
          | none => .ok (pre, endTag + 1)
      else
        match findCharFrom s '>' j with
        | none => .error "Unclosed tag".toList
        | some tagEnd =>
          match openTagInfo s j tagEnd with
          | .error e => .error e
          | .ok (tagName, attributes, isSelfClosing) =>
            if isSelfClosing then
              match parse_node s fuel (tagEnd + 1) expected with
              | .error e => .error e
              | .ok (rest, p) =>
                .ok (pre ++ .SSMLTag tagName attributes [] :: rest, p)
            else
              match parse_node s fuel (tagEnd + 1) (some tagName) with
              | .error e => .error e
              | .ok (children, newPos) =>
                match parse_node s fuel newPos expected with
                | .error e => .error e
                | .ok (rest, p) =>
                  .ok (pre ++ .SSMLTag tagName attributes children :: rest, p)

/-- The root-tag location step of `parseSSML` (lines 213-223): the start of
`<speak` in the lowered string, the `>` ending the opening tag, and the
start of the last `</speak>`. -/
def rootSpan (ssml lower : Str) : Except Str (Nat × Nat × Nat) :=
  match findSubIdx "<speak".toList lower with
  | none => .error "SSML must be wrapped in a <speak> tag".toList
  | some speakStart =>
    match findCharFrom ssml '>' speakStart with
    | none => .error "Invalid SSML: unclosed <speak> tag".toList
    | some speakEnd =>
      match rfindSub "</speak>".toList lower with
      | none => .error "Invalid SSML: missing closing </speak> tag".toList
      | some contentEnd => .ok (speakStart, speakEnd, contentEnd)

/-- The root-tag attribute handling of `parseSSML` (lines 230-234): only
when the opening tag's text contains a literal space are attributes
tokenized, and the tokenizer's errors are not wrapped with a tag name. -/
def rootAttrs (ssml : Str) (speakStart speakEnd : Nat) : Except Str (List (Str × Str)) :=
  if (pySlice ssml speakStart speakEnd).contains ' ' then
    let attrStr := pyStrip (pySlice ssml (speakStart + 6) speakEnd)
    if attrStr.isEmpty then .ok [] else parse_attributes attrStr
  else .ok []

/-- `parseSSML` from the source: the root-tag pre-check, the extraction of
the body between the end of the opening tag and the last `</speak>`, the
recursive parse, the root attributes, and the generic error wrapper around
everything inside the `try` block. -/
def parseSSML (input : Str) : Except Str SSMLNode :=
  let ssml := pyStrip input
  let lower := pyLower ssml
  if !("<speak".toList.isPrefixOf (lstrip lower) && containsSub lower "</speak>".toList) then
    .error "SSML must be wrapped in a <speak> tag".toList
  else
    let inner : Except Str SSMLNode :=
      match rootSpan ssml lower with
      | .error e => .error e
      | .ok (speakStart, speakEnd, contentEnd) =>
        let content := pyStrip (pySlice ssml (speakEnd + 1) contentEnd)
        match parse_node content (content.length + 2) 0 none with
        | .error e => .error e
        | .ok (nodes, _) =>
          match rootAttrs ssml speakStart speakEnd with
          | .error e => .error e
          | .ok speakAttrs => .ok (.SSMLTag "speak".toList speakAttrs nodes)
    match inner with
    | .error e => .error ("Error parsing SSML: ".toList ++ e)
    | .ok r => .ok r

/-- The serialized attribute string: each attribute as `name="escaped"`,
joined by single spaces, with one leading space when nonempty. -/
def attrsToText (attrs : List (Str × Str)) : Str :=
  match attrs.map (fun p => p.1 ++ ('=' :: '"' :: (escapeXMLChars p.2 ++ ['"']))) with
  | [] => []
  | piece :: pieces => ' ' :: pieces.foldl (fun acc q => acc ++ ' ' :: q) piece

mutual

/-- `ssmlNodeToText` from the source. -/
def ssmlNodeToText : SSMLNode → Str
  | .SSMLText t => escapeXMLChars t
  | .SSMLTag name attrs children =>
    let a := attrsToText attrs
    match children with
    | [] => '<' :: (name ++ a ++ " />".toList)
    | c :: cs =>
      let body := ssmlNodeToText c ++ ssmlListToText cs
      if hasNonWs body then
        '<' :: (name ++ a ++ '>' :: (body ++ '<' :: '/' :: (name ++ ['>'])))
      else
        '<' :: (name ++ a ++ " />".toList)

/-- Concatenated rendering of a list of children (`"".join(...)`). -/
def ssmlListToText : List SSMLNode → Str
  | [] => []
  | c :: cs => ssmlNodeToText c ++ ssmlListToText cs

end

/-- The self-closing rendering of an element, `<name attrs />`. -/
def selfCloseText (name : Str) (attrs : List (Str × Str)) : Str :=
  '<' :: (name ++ attrsToText attrs ++ " />".toList)

mutual

/-- Every `SSMLText` in the tree holds some non-whitespace character. -/
def nodeTextsNonWs : SSMLNode → Bool
  | .SSMLText t => hasNonWs t
  | .SSMLTag _ _ children => forestTextsNonWs children

/-- `nodeTextsNonWs` over a list of nodes. -/
def forestTextsNonWs : List SSMLNode → Bool
  | [] => true
  | c :: cs => nodeTextsNonWs c && forestTextsNonWs cs

end

mutual

/-- The text contents occurring anywhere in a tree, in document order. -/
def nodeTexts : SSMLNode → List Str
  | .SSMLText t => [t]
  | .SSMLTag _ _ children => forestTexts children

/-- `nodeTexts` over a list of nodes. -/
def forestTexts : List SSMLNode → List Str
  | [] => []
  | c :: cs => nodeTexts c ++ forestTexts cs

end

/-- The body substring `parseSSML` hands to `parse_node`: everything
between the `>` closing the opening root tag and the last occurrence of
`</speak>`, stripped of surrounding whitespace (the `.strip()` on line 226
of the source). -/
def rootBody (input : Str) : Option Str :=
  let ssml := pyStrip input
  match rootSpan ssml (pyLower ssml) with
  | .error _ => none
  | .ok (_, speakEnd, contentEnd) => some (pyStrip (pySlice ssml (speakEnd + 1) contentEnd))

/-- A message has the raw shape of one of the four attribute-tokenizer
errors (nothing prepended in front of it). -/
def attrErrShaped (m : Str) : Bool :=
  strStarts "Invalid attribute at position ".toList m ||
  strStarts "Expected '=' after attribute name '".toList m ||
  strStarts "Expected attribute value after '=' for attribute '".toList m ||
  strStarts "Unclosed quote in attribute value for '".toList m


theorem hasNonWs_append (a b : Str) :
    hasNonWs (a ++ b) = (hasNonWs a || hasNonWs b) := by
  simp [hasNonWs, List.any_append]

theorem hasNonWs_listReplaceF (pat rep : Str) (hrep : hasNonWs rep = true) :
    ∀ fuel s, hasNonWs s = true → hasNonWs (listReplaceF pat rep fuel s) = true := by
  intro fuel
  induction fuel with
  | zero => intro s hs; simpa [listReplaceF] using hs
  | succ f ih =>
    intro s hs
    match s with
    | [] => simpa [listReplaceF] using hs
    | x :: xs =>
      rw [listReplaceF]
      split
      · rw [hasNonWs_append]
        simp [hrep]
      · have hx : hasNonWs (x :: xs) = (!pyIsSpace x || hasNonWs xs) := by
          simp [hasNonWs]
        rw [hx] at hs
        have hgoal : hasNonWs (x :: listReplaceF pat rep f xs) =
            (!pyIsSpace x || hasNonWs (listReplaceF pat rep f xs)) := by
          simp [hasNonWs]
        rw [hgoal]
        rcases Bool.or_eq_true_iff.mp hs with h | h
        · simp [h]
        · simp [ih xs h]

theorem hasNonWs_unescape (t : Str) (h : hasNonWs t = true) :
    hasNonWs (unescapeXMLChars t) = true := by
  unfold unescapeXMLChars listReplace
  exact hasNonWs_listReplaceF _ _ (by decide) _ _
    (hasNonWs_listReplaceF _ _ (by decide) _ _
      (hasNonWs_listReplaceF _ _ (by decide) _ _ h))

theorem forestTextsNonWs_append (a b : List SSMLNode) :
    forestTextsNonWs (a ++ b) = (forestTextsNonWs a && forestTextsNonWs b) := by
  induction a with
  | nil => simp [forestTextsNonWs]
  | cons c cs ih => simp [forestTextsNonWs, ih, Bool.and_assoc]

theorem forestTextsNonWs_flushText (t : Str) :
    forestTextsNonWs (flushText t) = true := by
  unfold flushText
  split
  · rename_i h
    simp [forestTextsNonWs, nodeTextsNonWs, hasNonWs_unescape _ h]
  · simp [forestTextsNonWs]

theorem parse_node_textsNonWs (s : Str) :
    ∀ fuel pos exp res p, parse_node s fuel pos exp = .ok (res, p) →
      forestTextsNonWs res = true := by
  intro fuel
  induction fuel with
  | zero => intro pos exp res p h; simp [parse_node] at h
  | succ f ih =>
    intro pos exp res p h
    rw [parse_node] at h
    cases hlt : findCharFrom s '<' pos with
    | none =>
      cases exp with
      | some e => simp [hlt] at h
      | none =>
        simp only [hlt, Except.ok.injEq, Prod.mk.injEq] at h
        obtain ⟨h1, _⟩ := h
        subst h1
        exact forestTextsNonWs_flushText _
    | some j =>
      by_cases hcl : startsWithAt s "</".toList j = true
      · cases hgt : findCharFrom s '>' j with
        | none => simp [hlt, hcl, hgt] at h
        | some endTag =>
          cases exp with
          | some e =>
            by_cases hne : pyLower (pyStrip (pySlice s (j + 2) endTag)) ≠ e
            · simp only [hlt, hcl, hgt, if_true, if_pos hne] at h
              exact Except.noConfusion h
            · simp only [hlt, hcl, hgt, if_true, if_neg hne,
                Except.ok.injEq, Prod.mk.injEq] at h
              obtain ⟨h1, _⟩ := h
              subst h1
              exact forestTextsNonWs_flushText _
          | none =>
            simp only [hlt, hcl, hgt, if_true,
              Except.ok.injEq, Prod.mk.injEq] at h
            obtain ⟨h1, _⟩ := h
            subst h1
            exact forestTextsNonWs_flushText _
      · cases hgt : findCharFrom s '>' j with
        | none =>
          simp only [hlt, hcl, hgt, Bool.false_eq_true, if_false] at h
          exact Except.noConfusion h
        | some tagEnd =>
          cases hot : openTagInfo s j tagEnd with
          | error e =>
            simp only [hlt, hcl, hgt, hot, Bool.false_eq_true, if_false] at h
            exact Except.noConfusion h
          | ok info =>
            obtain ⟨tagName, attributes, sc⟩ := info
            cases sc with
            | true =>
              cases hrec : parse_node s f (tagEnd + 1) exp with
              | error e =>
                simp only [hlt, hcl, hgt, hot, hrec, if_true,
                  Bool.false_eq_true, if_false] at h
                exact Except.noConfusion h
              | ok pr =>
                obtain ⟨rest, p'⟩ := pr
                simp only [hlt, hcl, hgt, hot, hrec, if_true, Bool.false_eq_true,
                  if_false, Except.ok.injEq, Prod.mk.injEq] at h
                obtain ⟨h1, _⟩ := h
                subst h1
                rw [forestTextsNonWs_append]
                simp [forestTextsNonWs, nodeTextsNonWs,
                  forestTextsNonWs_flushText, ih _ _ _ _ hrec]
            | false =>
              cases hch : parse_node s f (tagEnd + 1) (some tagName) with
              | error e =>
                simp only [hlt, hcl, hgt, hot, hch, Bool.false_eq_true, if_false] at h
                exact Except.noConfusion h
              | ok pr =>
                obtain ⟨children, newPos⟩ := pr
                cases hrec : parse_node s f newPos exp with
                | error e =>
                  simp only [hlt, hcl, hgt, hot, hch, hrec,
                    Bool.false_eq_true, if_false] at h
                  exact Except.noConfusion h
                | ok pr2 =>
                  obtain ⟨rest, p'⟩ := pr2
                  simp only [hlt, hcl, hgt, hot, hch, hrec, Bool.false_eq_true,
                    if_false, Except.ok.injEq, Prod.mk.injEq] at h
                  obtain ⟨h1, _⟩ := h
                  subst h1
                  rw [forestTextsNonWs_append]
                  simp [forestTextsNonWs, nodeTextsNonWs,
                    forestTextsNonWs_flushText, ih _ _ _ _ hch, ih _ _ _ _ hrec]

theorem strStarts_take_of_append (l : Str) : ∀ (p r : Str),
    strStarts p (l ++ r) = true → strStarts (p.take l.length) l = true := by
  induction l with
  | nil => intro p r _; simp [strStarts]
  | cons y ys ih =>
    intro p r h
    cases p with
    | nil => simp [strStarts]
    | cons q qs =>
      rw [List.cons_append, strStarts, Bool.and_eq_true] at h
      obtain ⟨h1, h2⟩ := h
      rw [List.length_cons, List.take_succ_cons, strStarts, Bool.and_eq_true]
      exact ⟨h1, ih qs r h2⟩

theorem attrErrShaped_of_append_false (l rest : Str)
    (h1 : strStarts ("Invalid attribute at position ".toList.take l.length) l = false)
    (h2 : strStarts ("Expected '=' after attribute name '".toList.take l.length) l = false)
    (h3 : strStarts ("Expected attribute value after '=' for attribute '".toList.take l.length) l = false)
    (h4 : strStarts ("Unclosed quote in attribute value for '".toList.take l.length) l = false) :
    attrErrShaped (l ++ rest) = false := by
  unfold attrErrShaped
  simp only [Bool.or_eq_false_iff]
  refine ⟨⟨⟨?_, ?_⟩, ?_⟩, ?_⟩ <;>
    · rw [Bool.eq_false_iff]
      intro hc
      have := strStarts_take_of_append l _ rest hc
      simp_all

theorem attrErrShaped_wrapAttrErr (n e : Str) :
    attrErrShaped (wrapAttrErr n e) = false := by
  unfold wrapAttrErr
  exact attrErrShaped_of_append_false _ _ (by decide) (by decide) (by decide) (by decide)

theorem attrErrShaped_mismatchMsg (a b : Str) :
    attrErrShaped (mismatchMsg a b) = false := by
  unfold mismatchMsg
  exact attrErrShaped_of_append_false _ _ (by decide) (by decide) (by decide) (by decide)

theorem attrErrShaped_missingClosingMsg (a : Str) :
    attrErrShaped (missingClosingMsg a) = false := by
  unfold missingClosingMsg
  exact attrErrShaped_of_append_false _ _ (by decide) (by decide) (by decide) (by decide)

theorem openTagInfo_error_shape (s : Str) (j tagEnd : Nat) (e : Str)
    (h : openTagInfo s j tagEnd = .error e) : attrErrShaped e = false := by
  rw [openTagInfo] at h
  cases hp : openTagParts s j tagEnd with
  | mk parts sc =>
    cases parts with
    | nil =>
      simp only [hp, Except.error.injEq] at h
      subst h
      decide
    | cons tok restParts =>
      cases restParts with
      | nil => simp [hp] at h
      | cons r tail =>
        by_cases hre : r.isEmpty = true
        · simp [hp, hre] at h
        · cases hpa : parse_attributes r with
          | error e' =>
            simp only [hp, hre, Bool.false_eq_true, if_false, hpa,
              Except.error.injEq] at h
            subst h
            exact attrErrShaped_wrapAttrErr _ _
          | ok a => simp [hp, hre, hpa] at h

theorem parse_node_attrErr_wrapped (s : Str) :
    ∀ fuel pos exp m, parse_node s fuel pos exp = .error m →
      attrErrShaped m = false := by
  intro fuel
  induction fuel with
  | zero =>
    intro pos exp m h
    simp only [parse_node, Except.error.injEq] at h
    subst h
    decide
  | succ f ih =>
    intro pos exp m h
    rw [parse_node] at h
    cases hlt : findCharFrom s '<' pos with
    | none =>
      cases exp with
      | some e =>
        simp only [hlt, Except.error.injEq] at h
        subst h
        exact attrErrShaped_missingClosingMsg _
      | none => simp [hlt] at h
    | some j =>
      by_cases hcl : startsWithAt s "</".toList j = true
      · cases hgt : findCharFrom s '>' j with
        | none =>
          simp only [hlt, hcl, hgt, if_true, Except.error.injEq] at h
          subst h
          decide
        | some endTag =>
          cases exp with
          | some e =>
            by_cases hne : pyLower (pyStrip (pySlice s (j + 2) endTag)) ≠ e
            · simp only [hlt, hcl, hgt, if_true, if_pos hne, Except.error.injEq] at h
              subst h
              exact attrErrShaped_mismatchMsg _ _
            · simp only [hlt, hcl, hgt, if_true, if_neg hne] at h
              exact Except.noConfusion h
          | none =>
            simp only [hlt, hcl, hgt, if_true] at h
            exact Except.noConfusion h
      · cases hgt : findCharFrom s '>' j with
        | none =>
          simp only [hlt, hcl, hgt, Bool.false_eq_true, if_false, Except.error.injEq] at h
          subst h
          decide
        | some tagEnd =>
          cases hot : openTagInfo s j tagEnd with
          | error e =>
            simp only [hlt, hcl, hgt, hot, Bool.false_eq_true, if_false,
              Except.error.injEq] at h
            subst h
            exact openTagInfo_error_shape s j tagEnd _ hot
          | ok info =>
            obtain ⟨tagName, attributes, sc⟩ := info
            cases sc with
            | true =>
              cases hrec : parse_node s f (tagEnd + 1) exp with
              | error e =>
                simp only [hlt, hcl, hgt, hot, hrec, if_true,
                  Bool.false_eq_true, if_false, Except.error.injEq] at h
                subst h
                exact ih _ _ _ hrec
              | ok pr =>
                obtain ⟨rest, p'⟩ := pr
                simp only [hlt, hcl, hgt, hot, hrec, if_true,
                  Bool.false_eq_true, if_false] at h
                exact Except.noConfusion h
            | false =>
              cases hch : parse_node s f (tagEnd + 1) (some tagName) with
              | error e =>
                simp only [hlt, hcl, hgt, hot, hch,
                  Bool.false_eq_true, if_false, Except.error.injEq] at h
                subst h
                exact ih _ _ _ hch
              | ok pr =>
                obtain ⟨children, newPos⟩ := pr
                cases hrec : parse_node s f newPos exp with
                | error e =>
                  simp only [hlt, hcl, hgt, hot, hch, hrec,
                    Bool.false_eq_true, if_false, Except.error.injEq] at h
                  subst h
                  exact ih _ _ _ hrec
                | ok pr2 =>
                  obtain ⟨rest, p'⟩ := pr2
                  simp only [hlt, hcl, hgt, hot, hch, hrec,
                    Bool.false_eq_true, if_false] at h
                  exact Except.noConfusion h

theorem parse_node_mismatch_fails (s : Str) (fuel pos j endTag : Nat) (exp : Str)
    (hj : findCharFrom s '<' pos = some j)
    (hcl : startsWithAt s "</".toList j = true)
    (hgt : findCharFrom s '>' j = some endTag)
    (hne : pyLower (pyStrip (pySlice s (j + 2) endTag)) ≠ exp) :
    parse_node s (fuel + 1) pos (some exp) =
      .error (mismatchMsg exp (pyLower (pyStrip (pySlice s (j + 2) endTag)))) := by
  rw [parse_node]
  simp only [hj, hcl, hgt, if_true, if_pos hne]

theorem parseSSML_ok_inv (s : Str) (t : SSMLNode) (h : parseSSML s = .ok t) :
    ∃ body attrs kids p, rootBody s = some body ∧
      parse_node body (body.length + 2) 0 none = .ok (kids, p) ∧
      t = .SSMLTag "speak".toList attrs kids := by
  rw [parseSSML] at h
  split at h
  · exact Except.noConfusion h
  · cases hrs : rootSpan (pyStrip s) (pyLower (pyStrip s)) with
    | error e => simp [hrs] at h
    | ok sp =>
      obtain ⟨speakStart, speakEnd, contentEnd⟩ := sp
      cases hpn : parse_node (pyStrip (pySlice (pyStrip s) (speakEnd + 1) contentEnd))
          ((pyStrip (pySlice (pyStrip s) (speakEnd + 1) contentEnd)).length + 2) 0 none with
      | error e => simp [hrs, hpn] at h
      | ok pr =>
        obtain ⟨nodes, p0⟩ := pr
        cases hra : rootAttrs (pyStrip s) speakStart speakEnd with
        | error e => simp [hrs, hpn, hra] at h
        | ok speakAttrs =>
          simp only [hrs, hpn, hra, Except.ok.injEq] at h
          refine ⟨pyStrip (pySlice (pyStrip s) (speakEnd + 1) contentEnd),
            speakAttrs, nodes, p0, ?_, hpn, h.symm⟩
          rw [rootBody, hrs]

theorem render_selfclose_of_wsOnly_children (name : Str) (attrs : List (Str × Str))
    (children : List SSMLNode)
    (h : hasNonWs (ssmlListToText children) = false) :
    ssmlNodeToText (.SSMLTag name attrs children) = selfCloseText name attrs := by
  cases children with
  | nil => rw [ssmlNodeToText, selfCloseText]
  | cons c cs =>
    rw [ssmlNodeToText, selfCloseText]
    rw [ssmlListToText] at h
    simp only [h, Bool.false_eq_true, if_false]

/-- Claim C1 (code bug): the round-trip `parse ∘ render` is not the
identity even on an input meeting the claim's side conditions.  At
`<speak>a &lt; b</speak>` the parse yields the tree with text `a < b`,
but because `escapeXMLChars` replaces `&` last, rendering produces
`<speak>a &amp;lt; b</speak>`, whose re-parse holds text `a &lt; b` - a
different tree. -/
theorem claim1_roundtrip_fails_on_escaped_input :
    parseSSML "<speak>a &lt; b</speak>".toList =
      .ok (.SSMLTag "speak".toList [] [.SSMLText "a < b".toList]) ∧
    ssmlNodeToText (.SSMLTag "speak".toList [] [.SSMLText "a < b".toList]) =
      "<speak>a &amp;lt; b</speak>".toList ∧
    parseSSML "<speak>a &amp;lt; b</speak>".toList =
      .ok (.SSMLTag "speak".toList [] [.SSMLText "a &lt; b".toList]) ∧
    (SSMLNode.SSMLTag "speak".toList [] [.SSMLText "a &lt; b".toList] ≠
      SSMLNode.SSMLTag "speak".toList [] [.SSMLText "a < b".toList]) := by
  refine ⟨rfl, rfl, rfl, ?_⟩
  intro h
  injection h with h1 h2 h3
  injection h3 with h4 h5
  injection h4 with h6
  exact absurd h6 (by decide)

/-- Claim C2 (code bug): parsing `<speak>a &lt; b &amp; c &gt; d</speak>`
does yield the text `a < b & c > d`, but rendering that text node gives
`a &amp;lt; b &amp; c &amp;gt; d`, not the original escaped form: the
`&` replacement in `escapeXMLChars` runs last and re-escapes the `&` of
the entities produced by the first two replacements. -/
theorem claim2_entity_roundtrip_render_side_fails :
    parseSSML "<speak>a &lt; b &amp; c &gt; d</speak>".toList =
      .ok (.SSMLTag "speak".toList [] [.SSMLText "a < b & c > d".toList]) ∧
    ssmlNodeToText (.SSMLText "a < b & c > d".toList) =
      "a &amp;lt; b &amp; c &amp;gt; d".toList ∧
    "a &amp;lt; b &amp; c &amp;gt; d".toList ≠ "a &lt; b &amp; c &gt; d".toList :=
  ⟨rfl, rfl, by decide⟩

/-- Claim C3, counterexample: `parse("<speak> hi </speak>")` does not
yield the child `Text(" hi ")` the claim asserts; the body substring is
stripped and the child is `Text("hi")`. -/
theorem claim3_counterexample :
    parseSSML "<speak> hi </speak>".toList =
      .ok (.SSMLTag "speak".toList [] [.SSMLText "hi".toList]) ∧
    parseSSML "<speak> hi </speak>".toList ≠
      .ok (.SSMLTag "speak".toList [] [.SSMLText " hi ".toList]) := by
  refine ⟨rfl, ?_⟩
  intro h
  rw [show parseSSML "<speak> hi </speak>".toList =
      .ok (.SSMLTag "speak".toList [] [.SSMLText "hi".toList]) from rfl] at h
  injection h with h1
  injection h1 with h2 h3 h4
  injection h4 with h5
  injection h5 with h6
  exact absurd h6 (by decide)

/-- Claim C3 as amended: the children of the returned root are the result
of recursively parsing the substring strictly between the `>` ending the
opening root tag and the last occurrence of the closing root token,
STRIPPED of leading and trailing whitespace (`rootBody`); in particular
`parse("<speak> hi </speak>")` yields the single child `Text("hi")`. -/
theorem claim3_amended_children_parse_stripped_body :
    (∀ (s name : Str) (attrs : List (Str × Str)) (kids : List SSMLNode),
      parseSSML s = .ok (.SSMLTag name attrs kids) →
      ∃ body p, rootBody s = some body ∧
        parse_node body (body.length + 2) 0 none = .ok (kids, p)) ∧
    parseSSML "<speak> hi </speak>".toList =
      .ok (.SSMLTag "speak".toList [] [.SSMLText "hi".toList]) := by
  refine ⟨?_, rfl⟩
  intro s name attrs kids h
  obtain ⟨body, attrs', kids', p, hb, hp, ht⟩ := parseSSML_ok_inv s _ h
  injection ht with h1 h2 h3
  exact ⟨body, p, hb, h3 ▸ hp⟩

/-- Witness for the amended claim C3, at `<speak>hi</speak>`. -/
theorem claim3_amended_witness :
    ∃ body p, rootBody "<speak>hi</speak>".toList = some body ∧
      parse_node body (body.length + 2) 0 none =
        .ok ([SSMLNode.SSMLText "hi".toList], p) :=
  claim3_amended_children_parse_stripped_body.1 "<speak>hi</speak>".toList
    "speak".toList [] [.SSMLText "hi".toList] rfl

/-- Claim C4, counterexample: in `<speak>a</speak>b</speak>` the text `b`
lying between the first and the last occurrence of the closing token does
NOT appear in the resulting tree: the parse succeeds but its only text is
`a`. -/
theorem claim4_counterexample :
    parseSSML "<speak>a</speak>b</speak>".toList =
      .ok (.SSMLTag "speak".toList [] [.SSMLText "a".toList]) ∧
    ("b".toList ∈ nodeTexts (.SSMLTag "speak".toList [] [.SSMLText "a".toList]) →
      False) :=
  ⟨rfl, by decide⟩

/-- Claim C4 as amended: the body handed to the recursive parser does
extend to the last occurrence of the closing token (here `a</speak>b`),
and the document parses leniently (no error); but the recursive parser
returns at the first embedded closing token, so the content between the
first and the last occurrence (`b`) is silently dropped rather than kept. -/
theorem claim4_amended_lenient_but_truncated :
    rootBody "<speak>a</speak>b</speak>".toList = some "a</speak>b".toList ∧
    parseSSML "<speak>a</speak>b</speak>".toList =
      .ok (.SSMLTag "speak".toList [] [.SSMLText "a".toList]) ∧
    nodeTexts (.SSMLTag "speak".toList [] [.SSMLText "a".toList]) = ["a".toList] :=
  ⟨rfl, rfl, rfl⟩

/-- Claim C5, counterexample: an attribute-tokenizer error from the root
tag's own attribute string propagates out of `parseSSML` with only the
generic prefix; the message does not contain the owning tag's name
`speak` at all. -/
theorem claim5_counterexample :
    parseSSML "<speak ?>x</speak>".toList =
      .error "Error parsing SSML: Invalid attribute at position 0".toList ∧
    containsSub "Error parsing SSML: Invalid attribute at position 0".toList
      "speak".toList = false :=
  ⟨rfl, by decide⟩

/-- Claim C5 as amended: attribute-tokenizer errors arising from tags
inside the body are always wrapped with the owning tag's name before they
escape `parse_node` (no raw tokenizer-shaped message is ever returned),
as the wrapped example shows; but the root tag's own attribute errors are
wrapped only with the generic `Error parsing SSML:` prefix, without the
tag name. -/
theorem claim5_amended_wrapping :
    (∀ (s : Str) (fuel pos : Nat) (exp : Option Str) (m : Str),
      parse_node s fuel pos exp = .error m → attrErrShaped m = false) ∧
    parseSSML "<speak><p ?>x</p></speak>".toList =
      .error "Error parsing SSML: Invalid attributes in tag <p>: Invalid attribute at position 0".toList ∧
    parseSSML "<speak ?>x</speak>".toList =
      .error "Error parsing SSML: Invalid attribute at position 0".toList :=
  ⟨fun s fuel pos exp m h => parse_node_attrErr_wrapped s fuel pos exp m h, rfl, rfl⟩

/-- Witness for the amended claim C5: a concrete erroring `parse_node`
run whose message is the wrapped form, shown not to be a raw
tokenizer-shaped message. -/
theorem claim5_amended_witness :
    attrErrShaped
      "Invalid attributes in tag <p>: Invalid attribute at position 0".toList = false :=
  claim5_amended_wrapping.1 "<p ?>x</p>".toList 12 0 none
    "Invalid attributes in tag <p>: Invalid attribute at position 0".toList rfl

/-- Claim C6 (confirmed): no `SSMLText` anywhere in a tree returned by
`parseSSML` is whitespace-only, and
`parse("<speak>  <break/>  </speak>")` returns a root with exactly one
child, the `break` element, and no text nodes. -/
theorem claim6_no_whitespace_only_texts :
    (∀ (s : Str) (t : SSMLNode), parseSSML s = .ok t → nodeTextsNonWs t = true) ∧
    parseSSML "<speak>  <break/>  </speak>".toList =
      .ok (.SSMLTag "speak".toList [] [.SSMLTag "break".toList [] []]) := by
  refine ⟨?_, rfl⟩
  intro s t h
  obtain ⟨body, attrs, kids, p, hb, hp, ht⟩ := parseSSML_ok_inv s t h
  subst ht
  rw [nodeTextsNonWs]
  exact parse_node_textsNonWs body _ _ _ _ _ hp

/-- Witness for claim C6, at `<speak>  <break/>  </speak>`. -/
theorem claim6_witness :
    nodeTextsNonWs (.SSMLTag "speak".toList [] [.SSMLTag "break".toList [] []]) = true :=
  claim6_no_whitespace_only_texts.1 "<speak>  <break/>  </speak>".toList _ rfl

/-- Claim C7 (confirmed): `render(Element("break", {}, []))` and
`render(Element("break", {}, [Text("   ")]))` both equal `<break />`;
in general any element whose children concatenate-render to an empty or
whitespace-only string renders in the self-closing form. -/
theorem claim7_selfclosing_forms :
    ssmlNodeToText (.SSMLTag "break".toList [] []) = "<break />".toList ∧
    ssmlNodeToText (.SSMLTag "break".toList [] [.SSMLText "   ".toList]) =
      "<break />".toList ∧
    (∀ (name : Str) (attrs : List (Str × Str)) (children : List SSMLNode),
      hasNonWs (ssmlListToText children) = false →
      ssmlNodeToText (.SSMLTag name attrs children) = selfCloseText name attrs) :=
  ⟨rfl, rfl, fun name attrs children h =>
    render_selfclose_of_wsOnly_children name attrs children h⟩

/-- Witness for claim C7: the general clause applied to a whitespace-only
text child. -/
theorem claim7_witness :
    ssmlNodeToText (.SSMLTag "p".toList [] [.SSMLText " ".toList]) =
      selfCloseText "p".toList [] :=
  claim7_selfclosing_forms.2.2 "p".toList [] [.SSMLText " ".toList] rfl

/-- Claim C8 (confirmed): `parse("<speak><p>hi</q></speak>")` fails with
the mismatched-tag error, and in general whenever the next tag is a
closing tag whose trimmed, case-folded name differs from the expected
innermost name, `parse_node` fails with the mismatched-tags error. -/
theorem claim8_mismatched_tags :
    parseSSML "<speak><p>hi</q></speak>".toList =
      .error "Error parsing SSML: Mismatched tags: expected </p>, got </q>".toList ∧
    (∀ (s : Str) (fuel pos j endTag : Nat) (exp : Str),
      findCharFrom s '<' pos = some j →
      startsWithAt s "</".toList j = true →
      findCharFrom s '>' j = some endTag →
      pyLower (pyStrip (pySlice s (j + 2) endTag)) ≠ exp →
      parse_node s (fuel + 1) pos (some exp) =
        .error (mismatchMsg exp (pyLower (pyStrip (pySlice s (j + 2) endTag))))) :=
  ⟨rfl, fun s fuel pos j endTag exp h1 h2 h3 h4 =>
    parse_node_mismatch_fails s fuel pos j endTag exp h1 h2 h3 h4⟩

/-- Witness for claim C8: the general clause applied to the body
`hi</q>` with expected tag `p`. -/
theorem claim8_witness :
    parse_node "hi</q>".toList 1 0 (some "p".toList) =
      .error (mismatchMsg "p".toList
        (pyLower (pyStrip (pySlice "hi</q>".toList (2 + 2) 5)))) :=
  claim8_mismatched_tags.2 "hi</q>".toList 0 0 2 5 "p".toList rfl rfl rfl (by decide)

/-- Claim C9 (confirmed): `parse("<speakx>hi</speak>")` succeeds, the
prefix check accepting the outermost tag name `speakx`, and returns a
root named `speak` with no attributes and the single child `Text("hi")`. -/
theorem claim9_prefix_root_accepted :
    parseSSML "<speakx>hi</speak>".toList =
      .ok (.SSMLTag "speak".toList [] [.SSMLText "hi".toList]) := rfl

/-- Claim C10 (confirmed): in `<speak><p time="a&b">x</p></speak>` the
quoted value's `&` has no later `;`, the entity-skipping scan runs past
the closing quote to the end of the attribute string, and parsing fails
with the unclosed-quote error for `time`, wrapped with the owning tag. -/
theorem claim10_entity_scan_unclosed_quote :
    parseSSML "<speak><p time=\"a&b\">x</p></speak>".toList =
      .error "Error parsing SSML: Invalid attributes in tag <p>: Unclosed quote in attribute value for 'time'".toList := rfl
